import Mathlib

/- Formal model of the rpmeta build-history ingestion pipeline.

The development shallowly embeds the repository's pure helpers
(`rpmeta/helpers.py`) and the ingestion core described in the
specification (HwInfo parser, retry wrapper, KojiFetcher, CoprFetcher).
Filesystem effects are modelled by an explicit effect trace, remote
calls by explicitly supplied upstream responses. -/

namespace RPMeta

/-! ## helpers.py -/

/-- `to_minutes_rounded` from `rpmeta/helpers.py`: `math.ceil(seconds / 60)`,
with the division taken exactly (over `ℚ`). -/
def to_minutes_rounded (seconds : Int) : Int :=
  ⌈(seconds : ℚ) / 60⌉

/-- A filesystem effect performed by `save_joblib`: creating a directory
(`result_dir.mkdir`) or dumping the object to a file (`joblib.dump`). -/
inductive FsOp where
  | mkdir (path : String)
  | dump (path : String)
deriving DecidableEq, Repr

/-- The filesystem state visible to `save_joblib`: which paths are existing
directories and which are existing files. -/
structure FsState where
  dirs : List String
  files : List String
deriving DecidableEq, Repr

/-- `Path.is_dir()` in the model. -/
def FsState.isDir (fs : FsState) (p : String) : Bool :=
  fs.dirs.contains p

/-- `Path.exists()` in the model: the path is an existing directory or file. -/
def FsState.pathExists (fs : FsState) (p : String) : Bool :=
  fs.dirs.contains p || fs.files.contains p

/-- The target path `result_dir / f"{filename}.joblib"`. -/
def joblibPath (result_dir filename : String) : String :=
  result_dir ++ "/" ++ filename ++ ".joblib"

/-- `save_joblib` from `rpmeta/helpers.py`, step for step: reject a
`result_dir` that is not a directory; create it if it does not exist
(the guard the source writes after the `is_dir` check); reject an already
existing target file; otherwise dump. The returned list is the trace of
filesystem effects actually performed, and the `Except` is the
`ValueError`-or-path outcome. -/
def save_joblib (fs : FsState) (result_dir filename : String) :
    List FsOp × Except String String :=
  if ¬ fs.isDir result_dir then
    ([], .error (result_dir ++ " is not a directory"))
  else
    let ops : List FsOp :=
      if ¬ fs.pathExists result_dir then [FsOp.mkdir result_dir] else []
    let path := joblibPath result_dir filename
    if fs.pathExists path then
      (ops, .error ("File " ++ path ++ " already exists, won't overwrite it"))
    else
      (ops ++ [FsOp.dump path], .ok path)

/-! ## Character-list string utilities

The parser below works line by line on the decoded log text. These helpers
are written by structural recursion on `List Char` so that concrete runs
reduce inside the kernel. -/

/-- Split a character list on a separator character; the separator is not kept.
An empty input yields one empty group, matching Python `str.split(sep)`. -/
def splitCharList (sep : Char) : List Char → List (List Char)
  | [] => [[]]
  | c :: rest =>
    let r := splitCharList sep rest
    if c = sep then [] :: r
    else
      match r with
      | [] => [[c]]
      | g :: gs => (c :: g) :: gs

/-- Whitespace as recognised by the tolerant key/value parsing. -/
def isWsChar (c : Char) : Bool :=
  c = ' ' || c = '\t' || c = '\r' || c = '\n'

/-- Strip leading and trailing whitespace, as Python `str.strip()`. -/
def trimCharList (l : List Char) : List Char :=
  ((l.dropWhile isWsChar).reverse.dropWhile isWsChar).reverse

/-- The numeric value of a decimal digit character, if it is one. -/
def digitVal (c : Char) : Option Nat :=
  if '0' ≤ c ∧ c ≤ '9' then some (c.toNat - '0'.toNat) else none

/-- Accumulate decimal digits into a natural number; any non-digit fails. -/
def decDigitsAux : List Char → Nat → Option Nat
  | [], acc => some acc
  | c :: rest, acc =>
    match digitVal c with
    | none => none
    | some d => decDigitsAux rest (acc * 10 + d)

/-- Parse a non-empty all-digit character list as a natural number,
as Python `int(s)` restricted to the defensive success cases. -/
def decNat : List Char → Option Nat
  | [] => none
  | l => decDigitsAux l 0

/-- Join character-list groups with a separator, inverse of `splitCharList`. -/
def joinCharList (sep : Char) : List (List Char) → List Char
  | [] => []
  | [g] => g
  | g :: gs => g ++ sep :: joinCharList sep gs

/-- Split a line at its first colon into (key, value), if it has one. -/
def splitFirstColon : List Char → Option (List Char × List Char)
  | [] => none
  | c :: rest =>
    if c = ':' then some ([], rest)
    else
      match splitFirstColon rest with
      | none => none
      | some (k, v) => some (c :: k, v)

/-! ## HwInfo and its parser

Modelled from the spec: `rpmeta/dataset.py` (`HwInfo.parse_from_lscpu`) is
not among the provided sources; the model follows section 4.1 of the
specification. Line-oriented key/value extraction over a fixed set of known
field labels (case-insensitive, whitespace tolerant); unknown lines ignored;
numeric fields parsed defensively so that a value that does not parse as the
expected numeric type (a positive integer for the count fields) is treated
as absent; a parsed sibling count smaller than the parsed core count would
break the documented invariant and is likewise treated as absent;
`ParseError` exactly when zero usable fields are recovered. -/

/-- Immutable structured hardware description (spec section 3). Fields that
the defensive parser could not recover are `none`. -/
structure HwInfo where
  architecture : Option String
  cpu_model_name : Option String
  cpu_model_number : Option String
  cpu_family : Option String
  core_count : Option Nat
  sibling_count : Option Nat
  ram_size : Option Nat
deriving DecidableEq, Repr

/-- The error signalled on structurally empty input. -/
structure ParseError where
  msg : String
deriving DecidableEq, Repr

/-- One line as a (lower-cased trimmed key, trimmed value) pair, if the line
has a colon. -/
def parseLogLine (l : List Char) : Option (String × String) :=
  match splitFirstColon l with
  | none => none
  | some (k, v) =>
    some (String.mk ((trimCharList k).map Char.toLower), String.mk (trimCharList v))

/-- The lines of the raw log text. -/
def logLines (raw : String) : List (List Char) :=
  splitCharList '\n' raw.data

/-- The first value recorded under a known label, if any. -/
def lookupLabel (raw : String) (label : String) : Option String :=
  (logLines raw).findSome? fun l =>
    match parseLogLine l with
    | some (k, v) => if k = label then some v else none
    | none => none

/-- A string-valued field: present when the label occurs with a non-empty
trimmed value. -/
def strField (raw : String) (label : String) : Option String :=
  match lookupLabel raw label with
  | none => none
  | some v => if v.data.isEmpty then none else some v

/-- A non-negative integer field, parsed defensively. -/
def natField (raw : String) (label : String) : Option Nat :=
  match lookupLabel raw label with
  | none => none
  | some v => decNat v.data

/-- A positive integer field, parsed defensively: zero fails to be of the
expected type (a positive integer) and is treated as absent. -/
def posNatField (raw : String) (label : String) : Option Nat :=
  match natField raw label with
  | none => none
  | some n => if n = 0 then none else some n

/-- The core count recovered from the log. -/
def rawCoreCount (raw : String) : Option Nat :=
  posNatField raw "core(s) per socket"

/-- The sibling (logical CPU) count recovered from the log, before the
invariant check against the core count. -/
def rawSiblingCount (raw : String) : Option Nat :=
  posNatField raw "cpu(s)"

/-- The sibling count kept in the record: a value smaller than the recovered
core count is degraded to absent rather than violating the invariant. -/
def checkedSiblingCount (raw : String) : Option Nat :=
  match rawCoreCount raw, rawSiblingCount raw with
  | some c, some sb => if sb < c then none else some sb
  | _, sb => sb

/-- All fields the defensive extraction recovers from the raw text. -/
def extractHwInfo (raw : String) : HwInfo where
  architecture := strField raw "architecture"
  cpu_model_name := strField raw "model name"
  cpu_model_number := strField raw "model"
  cpu_family := strField raw "cpu family"
  core_count := rawCoreCount raw
  sibling_count := checkedSiblingCount raw
  ram_size := natField raw "mem total"

/-- How many fields were recovered. -/
def usableFieldCount (info : HwInfo) : Nat :=
  [info.architecture.isSome, info.cpu_model_name.isSome,
   info.cpu_model_number.isSome, info.cpu_family.isSome,
   info.core_count.isSome, info.sibling_count.isSome,
   info.ram_size.isSome].count true

/-- `HwInfo.parse_from_lscpu`: defensive extraction, failing only when zero
usable fields were recovered. -/
def parse_from_lscpu (raw : String) : Except ParseError HwInfo :=
  let info := extractHwInfo raw
  if usableFieldCount info = 0 then
    .error ⟨"no usable hardware fields recovered"⟩
  else
    .ok info

/-! ## DatasetRecord and shared assembly helpers

Modelled from the spec: the unified output schema of section 3, restricted
to the fields the verified properties speak about. -/

/-- The unified record both fetchers emit, one per completed build. -/
structure DatasetRecord where
  package_name : String
  version : String
  mock_chroot : String
  build_duration : Nat
  hw_info : HwInfo
deriving DecidableEq, Repr

/-- Build duration from optional start/end epoch timestamps: `ended - started`
when both are present and the end does not precede the start, otherwise the
build is discarded. -/
def checkDuration (started ended : Option Int) : Option Nat :=
  match started, ended with
  | some s, some e => if e < s then none else some (e - s).toNat
  | _, _ => none

/-- The release (the final hyphen-separated segment) stripped from a source
package version string, as the repository's integration test pins for the
Copr source (`test_copr_fetcher_fetch_data`): the emitted version equals the
source version with its trailing `-release` removed. -/
def stripRelease (v : String) : String :=
  match splitCharList '-' v.data with
  | [] => v
  | [_] => v
  | g :: gs => String.mk (joinCharList '-' ((g :: gs).dropLast))

/-! ## Retry wrapper

Modelled from the spec: section 4.2. The remote call is modelled as a map
from the attempt index to that attempt's outcome; `retryCall` makes the
call, returns the first success, and after the fixed attempt ceiling
re-raises the last failure. -/

/-- Concrete (distribution name, version) pairs an alias resolves to. -/
def DistroAliases := List (String × String)

/-- `retryCall f attempt fuel` performs attempt `attempt` and up to `fuel`
further attempts after failures, re-raising the last failure. -/
def retryCall {α : Type} (f : Nat → Except String α) : Nat → Nat → Except String α
  | attempt, 0 => f attempt
  | attempt, fuel + 1 =>
    match f attempt with
    | .ok a => .ok a
    | .error _ => retryCall f (attempt + 1) fuel

/-- The fixed attempt ceiling of the alias-resolution retry. Modelled from
the spec: chosen as 3 so that the documented fails-twice-then-succeeds
scenario is within the ceiling. -/
def alias_retry_attempts : Nat := 3

/-- `_get_distro_aliases_retry`: the alias resolution wrapped in the retry
combinator with the fixed attempt ceiling. -/
def retryAlias (resolver : Nat → Except String DistroAliases) :
    Except String DistroAliases :=
  retryCall resolver 0 (alias_retry_attempts - 1)

/-! ## KojiFetcher

Modelled from the spec: section 4.4 and the repository's integration test
`test_koji_fetcher_fetch_data`. The upstream RPC service is modelled by the
per-build data each remote step would produce: the listing pages in order
(an absent page meaning the service reports no further results), and per
build the outcome of task resolution plus log download. -/

/-- A completed build as the fetcher sees it after listing and task
resolution: package/version/target fields, optional start/end epoch
timestamps, and the hardware log download outcome for its leaf task
(`.error` covering a missing/unmatched task as well as a download failure). -/
structure KojiBuild where
  package_name : String
  version : String
  target : String
  start_ts : Option Int
  end_ts : Option Int
  task_log : Except String String
deriving Repr

/-- The arguments of one `listBuilds` RPC call. -/
structure ListBuildsCall where
  state : Nat
  limit : Nat
  offset : Nat
  order : String
  createdAfter : Int
  createdBefore : Int
deriving DecidableEq, Repr

/-- The fixed page size of the build listing
(`queryOpts["limit"]` in `test_koji_fetcher_fetch_data`). -/
def koji_page_limit : Nat := 10000

/-- The `listBuilds` call for one page: completed state, fixed page size,
offset-based pagination, completion-timestamp-descending order, over the
caller's window. -/
def mkListBuildsCall (startTs endTs : Int) (offset : Nat) : ListBuildsCall where
  state := 1
  limit := koji_page_limit
  offset := offset
  order := "-completion_ts"
  createdAfter := startTs
  createdBefore := endTs

/-- Offset-based pagination until an empty page: collect the listed builds
and record every `listBuilds` call made. A failure to retrieve a page is
fatal. The upstream's pages are given in order; past the end of the list
the service reports no further results. -/
def kojiCollectBuilds (startTs endTs : Int) :
    List (Except String (List KojiBuild)) → Nat →
    Except String (List KojiBuild × List ListBuildsCall)
  | [], offset => .ok ([], [mkListBuildsCall startTs endTs offset])
  | p :: rest, offset =>
    match p with
    | .error e => .error e
    | .ok page =>
      if page.isEmpty then .ok ([], [mkListBuildsCall startTs endTs offset])
      else
        match kojiCollectBuilds startTs endTs rest (offset + koji_page_limit) with
        | .error e => .error e
        | .ok (bs, calls) =>
          .ok (page ++ bs, mkListBuildsCall startTs endTs offset :: calls)

/-- Per-build assembly: validate the timestamps, take the downloaded log,
parse it; any per-build failure drops only this build. -/
def processKojiBuild (b : KojiBuild) : Option DatasetRecord := do
  let dur ← checkDuration b.start_ts b.end_ts
  let raw ← b.task_log.toOption
  let hw ← (parse_from_lscpu raw).toOption
  pure
    { package_name := b.package_name
      version := b.version
      mock_chroot := b.target
      build_duration := dur
      hw_info := hw }

/-- `KojiFetcher.fetch_data`: resolve the distribution aliases through the
retry wrapper (fatal on exhaustion), page through the completed builds of
the window (fatal on a page-retrieval failure), then assemble records
build by build, skipping failed builds. Returns the records together with
the trace of `listBuilds` calls. -/
def kojiFetchData (resolver : Nat → Except String DistroAliases)
    (startTs endTs : Int) (pages : List (Except String (List KojiBuild))) :
    Except String (List DatasetRecord × List ListBuildsCall) :=
  match retryAlias resolver with
  | .error e => .error e
  | .ok _aliases =>
    match kojiCollectBuilds startTs endTs pages 0 with
    | .error e => .error e
    | .ok (builds, calls) => .ok (builds.filterMap processKojiBuild, calls)

/-! ## CoprFetcher

Modelled from the spec: section 4.5 and the repository's integration test
`test_copr_fetcher_fetch_data`. The three paginated listings are modelled by
their already-concatenated results (or the fatal retrieval failure), and
log download by a map from result URL to the download outcome. -/

/-- One chroot-level build result row. -/
structure CoprChrootRow where
  build_id : Nat
  name : String
  started_on : Option Int
  ended_on : Option Int
  result_url : String
  state : String
deriving Repr

/-- One build-level metadata row (`source_package` name and version). -/
structure CoprBuildRow where
  build_id : Nat
  source_package_name : String
  source_package_version : String
deriving Repr

/-- One project metadata row. -/
structure CoprProjectRow where
  name : String
  ownername : String
  full_name : String
deriving DecidableEq, Repr

/-- Mapping-by-key lookup of the build metadata joined to a chroot row. -/
def findBuildRow (bs : List CoprBuildRow) (id : Nat) : Option CoprBuildRow :=
  bs.find? fun b => b.build_id == id

/-- Per-row assembly: keep only succeeded rows with a matching
build-metadata row, validate the timestamps, download and parse the log at
the row's result URL; any per-row failure drops only this row. -/
def processCoprRow (bs : List CoprBuildRow) (logs : String → Except String String)
    (row : CoprChrootRow) : Option DatasetRecord :=
  if row.state = "succeeded" then do
    let b ← findBuildRow bs row.build_id
    let dur ← checkDuration row.started_on row.ended_on
    let raw ← (logs row.result_url).toOption
    let hw ← (parse_from_lscpu raw).toOption
    pure
      { package_name := b.source_package_name
        version := stripRelease b.source_package_version
        mock_chroot := row.name
        build_duration := dur
        hw_info := hw }
  else none

/-- `CoprFetcher.fetch_data`: a failure to retrieve any of the three primary
listings is fatal; otherwise join in memory over the chroot rows and
assemble records row by row, skipping failed rows. -/
def coprFetchData (chroots : Except String (List CoprChrootRow))
    (builds : Except String (List CoprBuildRow))
    (projects : Except String (List CoprProjectRow))
    (logs : String → Except String String) :
    Except String (List DatasetRecord) :=
  match chroots, builds, projects with
  | .error e, _, _ => .error e
  | _, .error e, _ => .error e
  | _, _, .error e => .error e
  | .ok cs, .ok bs, .ok _ps => .ok (cs.filterMap (processCoprRow bs logs))

/-! ## Supporting lemmas -/
lemma except_toOption_eq_some {ε α : Type} {x : Except ε α} {a : α} :
    x.toOption = some a ↔ x = .ok a := by
  cases x <;> simp [Except.toOption]

lemma checkDuration_eq_some {so se : Option Int} {d : Nat}
    (h : checkDuration so se = some d) :
    ∃ s e, so = some s ∧ se = some e ∧ s ≤ e ∧ (d : Int) = e - s := by
  cases so with
  | none => simp [checkDuration] at h
  | some s =>
    cases se with
    | none => simp [checkDuration] at h
    | some e =>
      by_cases hlt : e < s
      · simp [checkDuration, hlt] at h
      · refine ⟨s, e, rfl, rfl, le_of_not_lt hlt, ?_⟩
        simp [checkDuration, hlt] at h
        rw [← h, Int.toNat_of_nonneg (sub_nonneg.mpr (le_of_not_lt hlt))]

lemma processKojiBuild_eq_some {b : KojiBuild} {r : DatasetRecord}
    (h : processKojiBuild b = some r) :
    ∃ dur raw hw, checkDuration b.start_ts b.end_ts = some dur ∧
      b.task_log = .ok raw ∧ parse_from_lscpu raw = .ok hw ∧
      r = { package_name := b.package_name, version := b.version,
            mock_chroot := b.target, build_duration := dur, hw_info := hw } := by
  simp only [processKojiBuild, bind, Option.bind_eq_some, except_toOption_eq_some,
    pure, Option.some.injEq] at h
  obtain ⟨dur, hdur, raw, hraw, hw, hhw, hr⟩ := h
  exact ⟨dur, raw, hw, hdur, hraw, hhw, hr.symm⟩

lemma processKojiBuild_none_of_duration {b : KojiBuild}
    (h : checkDuration b.start_ts b.end_ts = none) : processKojiBuild b = none := by
  simp [processKojiBuild, bind, h]

lemma processCoprRow_eq_some {bs : List CoprBuildRow}
    {logs : String → Except String String} {row : CoprChrootRow} {r : DatasetRecord}
    (h : processCoprRow bs logs row = some r) :
    row.state = "succeeded" ∧
    ∃ b dur raw hw, findBuildRow bs row.build_id = some b ∧
      checkDuration row.started_on row.ended_on = some dur ∧
      logs row.result_url = .ok raw ∧ parse_from_lscpu raw = .ok hw ∧
      r = { package_name := b.source_package_name,
            version := stripRelease b.source_package_version,
            mock_chroot := row.name, build_duration := dur, hw_info := hw } := by
  by_cases hs : row.state = "succeeded"
  · refine ⟨hs, ?_⟩
    simp only [processCoprRow, hs, if_true, bind, Option.bind_eq_some,
      except_toOption_eq_some, pure, Option.some.injEq] at h
    obtain ⟨b, hb, dur, hdur, raw, hraw, hw, hhw, hr⟩ := h
    exact ⟨b, dur, raw, hw, hb, hdur, hraw, hhw, hr.symm⟩
  · simp [processCoprRow, hs] at h

lemma processCoprRow_none_state {bs : List CoprBuildRow}
    {logs : String → Except String String} {row : CoprChrootRow}
    (h : row.state ≠ "succeeded") : processCoprRow bs logs row = none := by
  simp [processCoprRow, h]

lemma processCoprRow_none_join {bs : List CoprBuildRow}
    {logs : String → Except String String} {row : CoprChrootRow}
    (h : findBuildRow bs row.build_id = none) : processCoprRow bs logs row = none := by
  by_cases hs : row.state = "succeeded" <;> simp [processCoprRow, hs, bind, h]

lemma processCoprRow_none_of_duration {bs : List CoprBuildRow}
    {logs : String → Except String String} {row : CoprChrootRow}
    (h : checkDuration row.started_on row.ended_on = none) :
    processCoprRow bs logs row = none := by
  by_cases hs : row.state = "succeeded" <;>
    simp [processCoprRow, hs, bind, h]

lemma checkDuration_none_missing {so se : Option Int}
    (h : so = none ∨ se = none) : checkDuration so se = none := by
  cases so <;> cases se <;> simp_all [checkDuration]

lemma posNatField_pos {raw label : String} {n : Nat}
    (h : posNatField raw label = some n) : 0 < n := by
  unfold posNatField at h
  cases hm : natField raw label with
  | none => simp [hm] at h
  | some m =>
    simp only [hm] at h
    by_cases h0 : m = 0
    · simp [h0] at h
    · simp [h0] at h
      omega

lemma parse_from_lscpu_ok {raw : String} {info : HwInfo}
    (h : parse_from_lscpu raw = .ok info) : info = extractHwInfo raw := by
  unfold parse_from_lscpu at h
  by_cases h0 : usableFieldCount (extractHwInfo raw) = 0 <;> simp [h0] at h
  exact h.symm

lemma checkedSiblingCount_spec {raw : String} {sb : Nat}
    (h : checkedSiblingCount raw = some sb) :
    rawSiblingCount raw = some sb ∧ ∀ c, rawCoreCount raw = some c → c ≤ sb := by
  unfold checkedSiblingCount at h
  cases hc : rawCoreCount raw with
  | none =>
    simp only [hc] at h
    exact ⟨h, fun c hc' => by simp [hc] at hc'⟩
  | some c =>
    cases hs : rawSiblingCount raw with
    | none => simp [hc, hs] at h
    | some sb' =>
      simp only [hc, hs] at h
      by_cases hlt : sb' < c
      · simp [hlt] at h
      · rw [if_neg hlt] at h
        injection h with h
        subst h
        refine ⟨rfl, fun c' hc' => ?_⟩
        injection hc' with hc'
        subst hc'
        exact le_of_not_lt hlt

lemma retryCall_all_error {α : Type} {f : Nat → Except String α} {es : Nat → String}
    (h : ∀ i, f i = .error (es i)) :
    ∀ fuel attempt, retryCall f attempt fuel = .error (es (attempt + fuel)) := by
  intro fuel
  induction fuel with
  | zero => intro a; simpa using h a
  | succ n ih =>
    intro a
    rw [retryCall, h a, ih (a + 1), (by omega : a + 1 + n = a + (n + 1))]

lemma kojiCollectBuilds_error_mem {startTs endTs : Int} :
    ∀ (pages : List (Except String (List KojiBuild))) (off : Nat) (e : String),
      kojiCollectBuilds startTs endTs pages off = .error e →
      Except.error e ∈ pages := by
  intro pages
  induction pages with
  | nil => intro off e h; simp [kojiCollectBuilds] at h
  | cons p rest ih =>
    intro off e h
    cases p with
    | error e' =>
      simp only [kojiCollectBuilds] at h
      cases h
      exact List.mem_cons_self _ _
    | ok page =>
      simp only [kojiCollectBuilds] at h
      by_cases hp : page.isEmpty
      · simp [hp] at h
      · simp only [hp, if_false] at h
        cases hrec : kojiCollectBuilds startTs endTs rest (off + koji_page_limit) with
        | error e' =>
          rw [hrec] at h
          cases h
          exact List.mem_cons_of_mem _ (ih _ _ hrec)
        | ok pr => rw [hrec] at h; cases h

/-- The builds the pagination loop yields: the listed pages concatenated up
to (excluding) the first empty page. -/
def kojiListedBuilds : List (List KojiBuild) → List KojiBuild
  | [] => []
  | p :: rest => if p.isEmpty then [] else p ++ kojiListedBuilds rest

/-- The `listBuilds` calls the pagination loop makes: one per page at
offsets increasing by the fixed page size, including the final call that
observes an empty page. -/
def kojiCallTrace (startTs endTs : Int) : List (List KojiBuild) → Nat → List ListBuildsCall
  | [], off => [mkListBuildsCall startTs endTs off]
  | p :: rest, off =>
    if p.isEmpty then [mkListBuildsCall startTs endTs off]
    else mkListBuildsCall startTs endTs off :: kojiCallTrace startTs endTs rest (off + koji_page_limit)

lemma kojiCollectBuilds_map_ok (startTs endTs : Int) :
    ∀ (pages : List (List KojiBuild)) (off : Nat),
      kojiCollectBuilds startTs endTs (pages.map Except.ok) off =
        .ok (kojiListedBuilds pages, kojiCallTrace startTs endTs pages off) := by
  intro pages
  induction pages with
  | nil => intro off; rfl
  | cons p rest ih =>
    intro off
    by_cases hp : p.isEmpty
    · simp [kojiCollectBuilds, kojiListedBuilds, kojiCallTrace, hp]
    · simp [kojiCollectBuilds, kojiListedBuilds, kojiCallTrace, hp, ih]

/-! ## Concrete fixtures for the closed instantiations -/

/-- An example hardware log in the format the parser targets. -/
def exLog : String :=
  "Architecture:   x86_64\nModel name: AMD EPYC 7543\nCPU(s): 8\nCore(s) per socket: 4\nMem total: 16384\nFlags: fpu vme"

/-- The hardware description the parser recovers from `exLog`. -/
def exHw : HwInfo :=
  ⟨some "x86_64", some "AMD EPYC 7543", none, none, some 4, some 8, some 16384⟩

/-- Concrete alias-resolution result. -/
def exAliases : DistroAliases := [("fedora", "36")]

/-- A resolver that always succeeds. -/
def exResolverOk : Nat → Except String DistroAliases := fun _ => .ok exAliases

/-- A resolver that fails on its first two attempts, then succeeds. -/
def exFlakyResolver : Nat → Except String DistroAliases :=
  fun i => if i < 2 then .error "connection reset" else .ok exAliases

/-- A listed build whose every per-build step succeeds. -/
def exKojiBuild : KojiBuild :=
  { package_name := "bash", version := "5.2.26", target := "fedora-36-x86_64",
    start_ts := some 1, end_ts := some 894, task_log := .ok exLog }

/-- A listed build with a missing end timestamp. -/
def exKojiBadBuild : KojiBuild :=
  { package_name := "vim", version := "9.1", target := "fedora-36-x86_64",
    start_ts := some 5, end_ts := none, task_log := .ok exLog }

/-- The record assembled from `exKojiBuild`. -/
def exKojiRec : DatasetRecord :=
  { package_name := "bash", version := "5.2.26", mock_chroot := "fedora-36-x86_64",
    build_duration := 893, hw_info := exHw }

/-- A succeeded chroot-result row. -/
def exChrootRow : CoprChrootRow :=
  { build_id := 1, name := "fedora-36-x86_64", started_on := some 1,
    ended_on := some 894, result_url := "xyz", state := "succeeded" }

/-- A failed chroot-result row. -/
def exFailedRow : CoprChrootRow :=
  { build_id := 1, name := "fedora-36-x86_64", started_on := some 1,
    ended_on := some 894, result_url := "xyz", state := "failed" }

/-- Build metadata whose source package version carries a release suffix. -/
def exCoprBuildRow : CoprBuildRow :=
  { build_id := 1, source_package_name := "pkg", source_package_version := "1.0-1.fc43" }

/-- Project metadata matching the integration test's fixture. -/
def exProjectRow : CoprProjectRow :=
  { name := "test-project", ownername := "test-owner",
    full_name := "test-project/test-package" }

/-- Log download that always yields `exLog`. -/
def exLogs : String → Except String String := fun _ => .ok exLog

/-- The record assembled from the Copr fixtures above. -/
def exCoprRec : DatasetRecord :=
  { package_name := "pkg", version := "1.0", mock_chroot := "fedora-36-x86_64",
    build_duration := 893, hw_info := exHw }

/-- A filesystem in which the target joblib file already exists. -/
def exFs : FsState :=
  { dirs := ["out"], files := ["out/model.joblib"] }


/-! ## Claims -/

/-- Claim C1: every DatasetRecord assembled by either fetcher carries
`build_duration = ended - started` as a non-negative integer; a build or
row whose start or end timestamp is missing, or whose end precedes its
start, is never emitted; and every record `fetch_data` returns comes from
such a per-build assembly. -/
theorem c1_build_duration_invariant :
    (∀ (b : KojiBuild) (r : DatasetRecord), processKojiBuild b = some r →
      ∃ s e, b.start_ts = some s ∧ b.end_ts = some e ∧ s ≤ e ∧
        (r.build_duration : Int) = e - s)
    ∧ (∀ b : KojiBuild, b.start_ts = none ∨ b.end_ts = none →
        processKojiBuild b = none)
    ∧ (∀ (b : KojiBuild) (s e : Int), b.start_ts = some s → b.end_ts = some e →
        e < s → processKojiBuild b = none)
    ∧ (∀ bs logs (row : CoprChrootRow) (r : DatasetRecord),
        processCoprRow bs logs row = some r →
        ∃ s e, row.started_on = some s ∧ row.ended_on = some e ∧ s ≤ e ∧
          (r.build_duration : Int) = e - s)
    ∧ (∀ bs logs (row : CoprChrootRow),
        row.started_on = none ∨ row.ended_on = none →
        processCoprRow bs logs row = none)
    ∧ (∀ bs logs (row : CoprChrootRow) (s e : Int), row.started_on = some s →
        row.ended_on = some e → e < s → processCoprRow bs logs row = none)
    ∧ (∀ resolver startTs endTs pages out,
        kojiFetchData resolver startTs endTs pages = .ok out →
        ∀ r ∈ out.1, ∃ b, processKojiBuild b = some r)
    ∧ (∀ c b p logs recs, coprFetchData c b p logs = .ok recs →
        ∃ cs bs, c = .ok cs ∧ b = .ok bs ∧
          ∀ r ∈ recs, ∃ row ∈ cs, processCoprRow bs logs row = some r) := by
  refine ⟨?_, ?_, ?_, ?_, ?_, ?_, ?_, ?_⟩
  · intro b r h
    obtain ⟨dur, raw, hw, hdur, -, -, hr⟩ := processKojiBuild_eq_some h
    obtain ⟨s, e, hs, he, hle, hd⟩ := checkDuration_eq_some hdur
    exact ⟨s, e, hs, he, hle, by rw [hr]; exact hd⟩
  · intro b h
    exact processKojiBuild_none_of_duration (checkDuration_none_missing h)
  · intro b s e hs he hlt
    apply processKojiBuild_none_of_duration
    rw [hs, he]
    simp [checkDuration, hlt]
  · intro bs logs row r h
    obtain ⟨-, b, dur, raw, hw, -, hdur, -, -, hr⟩ := processCoprRow_eq_some h
    obtain ⟨s, e, hs, he, hle, hd⟩ := checkDuration_eq_some hdur
    exact ⟨s, e, hs, he, hle, by rw [hr]; exact hd⟩
  · intro bs logs row h
    exact processCoprRow_none_of_duration (checkDuration_none_missing h)
  · intro bs logs row s e hs he hlt
    apply processCoprRow_none_of_duration
    rw [hs, he]
    simp [checkDuration, hlt]
  · intro resolver startTs endTs pages out h r hr
    unfold kojiFetchData at h
    cases hra : retryAlias resolver with
    | error e => rw [hra] at h; cases h
    | ok m =>
      rw [hra] at h
      cases hcb : kojiCollectBuilds startTs endTs pages 0 with
      | error e => rw [hcb] at h; cases h
      | ok pr =>
        obtain ⟨builds, calls⟩ := pr
        rw [hcb] at h
        injection h with h
        rw [← h] at hr
        obtain ⟨b, -, hbr⟩ := List.mem_filterMap.mp hr
        exact ⟨b, hbr⟩
  · intro c b p logs recs h
    cases c with
    | error e => cases b <;> cases p <;> cases h
    | ok cs =>
      cases b with
      | error e => cases p <;> cases h
      | ok bs =>
        cases p with
        | error e => cases h
        | ok ps =>
          injection h with h
          refine ⟨cs, bs, rfl, rfl, fun r hr => ?_⟩
          rw [← h] at hr
          exact List.mem_filterMap.mp hr

/-- Claim C1 witness: a build with a missing end timestamp is dropped. -/
theorem c1_witness : processKojiBuild exKojiBadBuild = none :=
  c1_build_duration_invariant.2.1 exKojiBadBuild (Or.inr rfl)

/-- Claim C2: a failure affecting a single build or row drops only that
record — the fetch still returns every other successfully assembled record —
while `fetch_data` raises only for setup failures: alias-resolution failure
or failure to retrieve a listing page. -/
theorem c2_failure_isolation :
    (∀ resolver m startTs endTs (pages : List (List KojiBuild)),
      retryAlias resolver = .ok m →
      kojiFetchData resolver startTs endTs (pages.map Except.ok) =
        .ok ((kojiListedBuilds pages).filterMap processKojiBuild,
             kojiCallTrace startTs endTs pages 0))
    ∧ (∀ (pre post : List KojiBuild) (b : KojiBuild), processKojiBuild b = none →
        (pre ++ b :: post).filterMap processKojiBuild =
          (pre ++ post).filterMap processKojiBuild)
    ∧ (∀ resolver startTs endTs pages e,
        kojiFetchData resolver startTs endTs pages = .error e →
        retryAlias resolver = .error e ∨ Except.error e ∈ pages)
    ∧ (∀ cs bs ps logs,
        coprFetchData (.ok cs) (.ok bs) (.ok ps) logs =
          .ok (cs.filterMap (processCoprRow bs logs)))
    ∧ (∀ bs logs (pre post : List CoprChrootRow) (row : CoprChrootRow),
        processCoprRow bs logs row = none →
        (pre ++ row :: post).filterMap (processCoprRow bs logs) =
          (pre ++ post).filterMap (processCoprRow bs logs))
    ∧ (∀ c b p logs e, coprFetchData c b p logs = .error e →
        c = .error e ∨ b = .error e ∨ p = .error e) := by
  refine ⟨?_, ?_, ?_, ?_, ?_, ?_⟩
  · intro resolver m startTs endTs pages hra
    unfold kojiFetchData
    rw [hra, kojiCollectBuilds_map_ok]
  · intro pre post b h
    simp [List.filterMap_append, List.filterMap_cons, h]
  · intro resolver startTs endTs pages e h
    unfold kojiFetchData at h
    cases hra : retryAlias resolver with
    | error e' =>
      rw [hra] at h
      injection h with h
      exact Or.inl (by rw [h])
    | ok m =>
      rw [hra] at h
      cases hcb : kojiCollectBuilds startTs endTs pages 0 with
      | error e' =>
        rw [hcb] at h
        injection h with h
        subst h
        exact Or.inr (kojiCollectBuilds_error_mem pages 0 e' hcb)
      | ok pr =>
        obtain ⟨builds, calls⟩ := pr
        rw [hcb] at h
        cases h
  · intro cs bs ps logs
    rfl
  · intro bs logs pre post row h
    simp [List.filterMap_append, List.filterMap_cons, h]
  · intro c b p logs e h
    cases c with
    | error e' =>
      cases b <;> cases p <;> exact Or.inl (by injection h with h; rw [h])
    | ok cs =>
      cases b with
      | error e' =>
        cases p <;> exact Or.inr (Or.inl (by injection h with h; rw [h]))
      | ok bs =>
        cases p with
        | error e' => exact Or.inr (Or.inr (by injection h with h; rw [h]))
        | ok ps => cases h

/-- Claim C2 witness: a failed build between successful ones drops only
itself from the assembled records. -/
theorem c2_witness :
    ([exKojiBuild] ++ exKojiBadBuild :: []).filterMap processKojiBuild =
      ([exKojiBuild] ++ []).filterMap processKojiBuild :=
  c2_failure_isolation.2.1 [exKojiBuild] [] exKojiBadBuild rfl

/-- Claim C3: with a single processed build in the first results page and an
empty second page, `fetch_data` returns exactly that one record, and the
build listing is called with the fixed page-size limit 10000, offset-based
pagination (offsets 0 and 10000), descending completion-timestamp order,
and the caller's [start, end) window as the creation bounds. -/
theorem c3_koji_single_page :
    ∀ resolver m startTs endTs (b : KojiBuild) (r : DatasetRecord),
      retryAlias resolver = .ok m →
      processKojiBuild b = some r →
      kojiFetchData resolver startTs endTs [.ok [b], .ok []] =
        .ok ([r], [mkListBuildsCall startTs endTs 0,
                   mkListBuildsCall startTs endTs koji_page_limit])
      ∧ koji_page_limit = 10000
      ∧ mkListBuildsCall startTs endTs 0 =
          { state := 1, limit := 10000, offset := 0, order := "-completion_ts",
            createdAfter := startTs, createdBefore := endTs }
      ∧ mkListBuildsCall startTs endTs koji_page_limit =
          { state := 1, limit := 10000, offset := 10000, order := "-completion_ts",
            createdAfter := startTs, createdBefore := endTs } := by
  intro resolver m startTs endTs b r hra hb
  refine ⟨?_, rfl, rfl, rfl⟩
  unfold kojiFetchData
  have hcb : kojiCollectBuilds startTs endTs [Except.ok [b], Except.ok []] 0 =
      .ok ([b], [mkListBuildsCall startTs endTs 0,
                 mkListBuildsCall startTs endTs koji_page_limit]) := by
    simpa [kojiListedBuilds, kojiCallTrace] using
      kojiCollectBuilds_map_ok startTs endTs [[b], []] 0
  rw [hra, hcb]
  simp [hb]

/-- Claim C3 witness: the concrete single-build scenario. -/
theorem c3_witness :
    kojiFetchData exResolverOk 0 100 [.ok [exKojiBuild], .ok []] =
      .ok ([exKojiRec], [mkListBuildsCall 0 100 0,
                         mkListBuildsCall 0 100 koji_page_limit]) :=
  (c3_koji_single_page exResolverOk exAliases 0 100 exKojiBuild exKojiRec rfl rfl).1

/-- Claim C4: parsing treats a field that fails to parse as its expected
numeric type as absent (the result is always the defensively extracted
field set), and `parse_from_lscpu` fails if and only if zero usable fields
were recovered; being a pure function it has no side effects. -/
theorem c4_parse_defensive :
    ∀ raw : String,
      ((∃ e, parse_from_lscpu raw = .error e) ↔
        usableFieldCount (extractHwInfo raw) = 0)
      ∧ (usableFieldCount (extractHwInfo raw) ≠ 0 →
          parse_from_lscpu raw = .ok (extractHwInfo raw)) := by
  intro raw
  unfold parse_from_lscpu
  by_cases h0 : usableFieldCount (extractHwInfo raw) = 0 <;> simp [h0]

/-- Claim C4 witness: the example log parses to its extracted field set. -/
theorem c4_witness : parse_from_lscpu exLog = .ok (extractHwInfo exLog) :=
  (c4_parse_defensive exLog).2 (by decide)

/-- Claim C5: every HwInfo the parser produces satisfies the documented
invariants on its recovered numeric fields: the core count is positive, the
sibling count is positive and at least the core count, and the RAM size is
non-negative. -/
theorem c5_hwinfo_invariants :
    ∀ (raw : String) (info : HwInfo), parse_from_lscpu raw = .ok info →
      (∀ n, info.core_count = some n → 0 < n)
      ∧ (∀ n, info.sibling_count = some n → 0 < n)
      ∧ (∀ c sb, info.core_count = some c → info.sibling_count = some sb →
          c ≤ sb)
      ∧ (∀ m, info.ram_size = some m → 0 ≤ m) := by
  intro raw info h
  have hi := parse_from_lscpu_ok h
  subst hi
  refine ⟨?_, ?_, ?_, ?_⟩
  · intro n hn
    exact posNatField_pos hn
  · intro n hn
    obtain ⟨hsib, -⟩ := checkedSiblingCount_spec hn
    exact posNatField_pos hsib
  · intro c sb hc hsb
    obtain ⟨-, hle⟩ := checkedSiblingCount_spec hsb
    exact hle c hc
  · intro m _
    exact Nat.zero_le m

/-- Claim C5 witness: the example log parses and its core count is positive. -/
theorem c5_witness : parse_from_lscpu exLog = .ok exHw ∧ 0 < 4 :=
  ⟨rfl, (c5_hwinfo_invariants exLog exHw rfl).1 4 rfl⟩

/-- Claim C6: the retry wrapper retries up to the fixed attempt ceiling and
on exhaustion re-raises the last failure; a resolver that fails twice then
succeeds lets `fetch_data` return exactly what it returns under an
always-succeeding resolver, and a resolver that always fails makes
`fetch_data` raise rather than return a partial result. -/
theorem c6_retry_policy :
    (∀ (f : Nat → Except String DistroAliases) (es : Nat → String),
      (∀ i, f i = .error (es i)) →
      retryAlias f = .error (es (alias_retry_attempts - 1)))
    ∧ (∀ (f : Nat → Except String DistroAliases) (m : DistroAliases)
        (e0 e1 : String), f 0 = .error e0 → f 1 = .error e1 → f 2 = .ok m →
        retryAlias f = .ok m)
    ∧ (∀ (f : Nat → Except String DistroAliases) (m : DistroAliases)
        (e0 e1 : String) (startTs endTs : Int) pages,
        f 0 = .error e0 → f 1 = .error e1 → f 2 = .ok m →
        kojiFetchData f startTs endTs pages =
          kojiFetchData (fun _ => .ok m) startTs endTs pages)
    ∧ (∀ (f : Nat → Except String DistroAliases) (es : Nat → String)
        (startTs endTs : Int) pages,
        (∀ i, f i = .error (es i)) →
        kojiFetchData f startTs endTs pages =
          .error (es (alias_retry_attempts - 1))) := by
  have hlast : ∀ (f : Nat → Except String DistroAliases) (es : Nat → String),
      (∀ i, f i = .error (es i)) →
      retryAlias f = .error (es (alias_retry_attempts - 1)) := by
    intro f es h
    have := retryCall_all_error h (alias_retry_attempts - 1) 0
    simpa [retryAlias] using this
  have hflaky : ∀ (f : Nat → Except String DistroAliases) (m : DistroAliases)
      (e0 e1 : String), f 0 = .error e0 → f 1 = .error e1 → f 2 = .ok m →
      retryAlias f = .ok m := by
    intro f m e0 e1 h0 h1 h2
    simp [retryAlias, alias_retry_attempts, retryCall, h0, h1, h2]
  refine ⟨hlast, hflaky, ?_, ?_⟩
  · intro f m e0 e1 startTs endTs pages h0 h1 h2
    unfold kojiFetchData
    rw [hflaky f m e0 e1 h0 h1 h2]
    rfl
  · intro f es startTs endTs pages h
    unfold kojiFetchData
    rw [hlast f es h]

/-- Claim C6 witness: the fails-twice-then-succeeds resolver resolves. -/
theorem c6_witness : retryAlias exFlakyResolver = .ok exAliases :=
  c6_retry_policy.2.1 exFlakyResolver exAliases "connection reset"
    "connection reset" rfl rfl rfl

/-- Claim C7 counterexample: on a source package version that carries a
release (`1.0-1.fc43`), the emitted record's version is `1.0` — the
release present at the source is not included. -/
theorem c7_counterexample :
    coprFetchData (.ok [exChrootRow]) (.ok [exCoprBuildRow])
        (.ok [exProjectRow]) exLogs = .ok [exCoprRec]
    ∧ exCoprBuildRow.source_package_version = "1.0-1.fc43"
    ∧ exCoprRec.version = "1.0"
    ∧ exCoprRec.version ≠ exCoprBuildRow.source_package_version :=
  ⟨rfl, rfl, rfl, by decide⟩

/-- Claim C7 (amended): every record the CoprFetcher emits takes its version
from the joined build metadata's source package version with the trailing
release segment stripped, and every record the KojiFetcher emits takes the
build's version field unchanged; the version is hence non-empty whenever
that source-derived version is. -/
theorem c7_version_from_source :
    (∀ bs logs (row : CoprChrootRow) (r : DatasetRecord),
      processCoprRow bs logs row = some r →
      ∃ b, findBuildRow bs row.build_id = some b ∧
        r.version = stripRelease b.source_package_version)
    ∧ (∀ (b : KojiBuild) (r : DatasetRecord), processKojiBuild b = some r →
        r.version = b.version) := by
  constructor
  · intro bs logs row r h
    obtain ⟨-, b, dur, raw, hw, hb, -, -, -, hr⟩ := processCoprRow_eq_some h
    exact ⟨b, hb, by rw [hr]⟩
  · intro b r h
    obtain ⟨dur, raw, hw, -, -, -, hr⟩ := processKojiBuild_eq_some h
    rw [hr]

/-- Claim C7 witness: the Koji record's version is the build's version. -/
theorem c7_witness : exKojiRec.version = exKojiBuild.version :=
  c7_version_from_source.2 exKojiBuild exKojiRec rfl

/-- Claim C8: no CoprFetcher record derives from a chroot-result row whose
state is not "succeeded" or that has no matching build-metadata row; every
such row is dropped, and every returned record comes from some surviving
row of the chroot listing. -/
theorem c8_copr_join :
    (∀ bs logs (row : CoprChrootRow) (r : DatasetRecord),
      processCoprRow bs logs row = some r →
      row.state = "succeeded" ∧ ∃ b, findBuildRow bs row.build_id = some b)
    ∧ (∀ bs logs (row : CoprChrootRow), row.state ≠ "succeeded" →
        processCoprRow bs logs row = none)
    ∧ (∀ bs logs (row : CoprChrootRow), findBuildRow bs row.build_id = none →
        processCoprRow bs logs row = none)
    ∧ (∀ cs bs ps logs recs,
        coprFetchData (.ok cs) (.ok bs) (.ok ps) logs = .ok recs →
        ∀ r ∈ recs, ∃ row ∈ cs, processCoprRow bs logs row = some r) := by
  refine ⟨?_, ?_, ?_, ?_⟩
  · intro bs logs row r h
    obtain ⟨hs, b, dur, raw, hw, hb, -⟩ := processCoprRow_eq_some h
    exact ⟨hs, b, hb⟩
  · intro bs logs row h
    exact processCoprRow_none_state h
  · intro bs logs row h
    exact processCoprRow_none_join h
  · intro cs bs ps logs recs h r hr
    injection h with h
    rw [← h] at hr
    exact List.mem_filterMap.mp hr

/-- Claim C8 witness: a row whose state is "failed" is dropped. -/
theorem c8_witness : processCoprRow [exCoprBuildRow] exLogs exFailedRow = none :=
  c8_copr_join.2.1 [exCoprBuildRow] exLogs exFailedRow (by decide)

/-- Claim C9: for every non-negative integer number of seconds,
`to_minutes_rounded` returns the ceiling of `seconds / 60`: the least
integer `m` with `60 * m ≥ seconds`; in particular it is non-negative and
returns 0 exactly when the input is 0. -/
theorem c9_to_minutes_rounded_ceil :
    ∀ s : Int, 0 ≤ s →
      0 ≤ to_minutes_rounded s
      ∧ s ≤ 60 * to_minutes_rounded s
      ∧ (∀ m : Int, s ≤ 60 * m → to_minutes_rounded s ≤ m)
      ∧ (to_minutes_rounded s = 0 ↔ s = 0) := by
  intro s hs
  unfold to_minutes_rounded
  have h60 : (0 : ℚ) < 60 := by norm_num
  have hq : (0 : ℚ) ≤ (s : ℚ) := by exact_mod_cast hs
  refine ⟨?_, ?_, ?_, ?_⟩
  · exact Int.ceil_nonneg (div_nonneg hq (le_of_lt h60))
  · have h := Int.le_ceil ((s : ℚ) / 60)
    rw [div_le_iff₀ h60] at h
    have h' : (s : ℚ) ≤ 60 * ((⌈(s : ℚ) / 60⌉ : ℤ) : ℚ) := by linarith
    exact_mod_cast h'
  · intro m hm
    rw [Int.ceil_le, div_le_iff₀ h60]
    have h' : (s : ℚ) ≤ 60 * (m : ℚ) := by exact_mod_cast hm
    linarith
  · constructor
    · intro h0
      by_contra hne
      have hpos : 0 < s := lt_of_le_of_ne hs (Ne.symm hne)
      have hqpos : (0 : ℚ) < (s : ℚ) / 60 :=
        div_pos (by exact_mod_cast hpos) h60
      have := Int.ceil_pos.mpr hqpos
      omega
    · intro h0
      subst h0
      simp

/-- Claim C9 witness: at 125 seconds the result is the ceiling, 3 minutes. -/
theorem c9_witness :
    0 ≤ (125 : Int) ∧ 125 ≤ 60 * to_minutes_rounded 125 ∧
      to_minutes_rounded 125 = 3 :=
  ⟨by norm_num, (c9_to_minutes_rounded_ceil 125 (by norm_num)).2.1,
   by norm_num [to_minutes_rounded, Int.ceil_eq_iff]⟩

/-- Claim C10: `save_joblib` fails with a `ValueError` and performs no
filesystem effect whenever `result_dir` is not an existing directory or the
target `<filename>.joblib` already exists; and the directory-creation
branch is unreachable — no call ever performs an `mkdir`. -/
theorem c10_save_joblib_guards :
    ∀ (fs : FsState) (d fn : String),
      ((fs.isDir d = false ∨ fs.pathExists (joblibPath d fn) = true) →
        (save_joblib fs d fn).1 = [] ∧
          ∃ e, (save_joblib fs d fn).2 = .error e)
      ∧ (∀ p, FsOp.mkdir p ∉ (save_joblib fs d fn).1) := by
  intro fs d fn
  have key : fs.isDir d = true → fs.pathExists d = true := by
    intro h
    unfold FsState.isDir at h
    unfold FsState.pathExists
    rw [h]
    rfl
  constructor
  · intro hdis
    by_cases hd : fs.isDir d
    · have hex := key hd
      rcases hdis with hfalse | hp
      · rw [hd] at hfalse; cases hfalse
      · refine ⟨?_, ?_⟩ <;> simp [save_joblib, hd, hex, hp]
    · have hd' : fs.isDir d = false := by
        cases hval : fs.isDir d
        · rfl
        · exact absurd hval hd
      refine ⟨?_, ?_⟩ <;> simp [save_joblib, hd']
  · intro p
    by_cases hd : fs.isDir d
    · have hex := key hd
      by_cases hp : fs.pathExists (joblibPath d fn) <;>
        simp [save_joblib, hd, hex, hp]
    · have hd' : fs.isDir d = false := by
        cases hval : fs.isDir d
        · rfl
        · exact absurd hval hd
      simp [save_joblib, hd']

/-- Claim C10 witness: with the target file already present, nothing is
written. -/
theorem c10_witness : (save_joblib exFs "out" "model").1 = [] :=
  ((c10_save_joblib_guards exFs "out" "model").1 (Or.inr rfl)).1

end RPMeta
